import Mathlib

/-!
Verification of `custom_components/vicare/__init__.py` (ViCare Home Assistant
integration) against its natural-language specification.

The Python module is shallowly embedded: identifiers are `List Char`
(Python `str`); Python's true division `/` on the scan interval is modelled
with `ℚ`; the `hass.data[DOMAIN]` process-wide mapping is an association
list keyed by entry id; the entity registry is a list of registry entries;
fallible operations (`os.remove`) return `Except`.
-/

namespace ViCare

/-- The premium-subscription field of a config entry's data mapping:
`none` models the key `CONF_PREMIUM` being absent, `some b` models the key
being present with boolean value `b` (`entry.data[CONF_PREMIUM]`). -/
abbrev PremiumFlag := Option Bool

/-- The scan-interval computation of `setup_vicare_api` (lines 154-158):
`scan_interval = max(DEFAULT_SCAN_INTERVAL, DEFAULT_SCAN_INTERVAL * len(devices))`,
then `scan_interval = scan_interval/2` iff `CONF_PREMIUM in entry.data and
entry.data[CONF_PREMIUM]`.  `B` stands for `DEFAULT_SCAN_INTERVAL` (imported
from `const.py`, kept symbolic), `n` for `len(vicare_api.devices)`.
Python's `/` is true division, hence the result lives in `ℚ`. -/
def computeInterval (B : ℚ) (n : ℕ) (premium : PremiumFlag) : ℚ :=
  let scan := max B (B * n)
  if premium = some true then scan / 2 else scan

/-- A device handle returned by the vendor client (`PyViCare.devices`
element).  `serial` is `device.getConfig().serial`; `uniqueDeviceId`
abstracts `helpers.get_unique_device_id(device)` (the helper lives in
`helpers.py`, outside this module; the claims only use its value
abstractly); `cacheDuration` is the mutable internal field
`device.service._PyViCareCachedService__cacheDuration`. -/
structure Device where
  serial : List Char
  uniqueDeviceId : List Char
  cacheDuration : ℚ
deriving DecidableEq, Repr

/-- An authenticated PyViCare session: `vicare_login` builds a client,
sets its cache duration to the given scan interval, authenticates, and
exposes the enumerated device list.  The device list the cloud returns is
a parameter of the embedding. -/
structure Session where
  cacheDuration : ℚ
  devices : List Device
deriving DecidableEq, Repr

/-- `vicare_login(hass, entry_data, scan_interval)` (lines 138-148):
constructs a `PyViCare` client with `setCacheDuration(scan_interval)` and
authenticates; `deviceList` is what the cloud enumerates for the account. -/
def vicare_login (deviceList : List Device) (scan_interval : ℚ) : Session :=
  { cacheDuration := scan_interval, devices := deviceList }

/-- `setup_vicare_api(hass, entry)` (lines 151-173): first login with the
default interval `B` (only to enumerate devices), interval computation,
second login with the computed interval, then the per-device override
`device.service._PyViCareCachedService__cacheDuration =
DEFAULT_SCAN_INTERVAL * len(vicare_api.devices)` on every device. -/
def setup_vicare_api (B : ℚ) (premium : PremiumFlag) (deviceList : List Device) :
    Session :=
  let api1 := vicare_login deviceList B
  let scan_interval := computeInterval B api1.devices.length premium
  let api2 := vicare_login deviceList scan_interval
  { cacheDuration := api2.cacheDuration,
    devices := api2.devices.map
      (fun d => { d with cacheDuration := B * api2.devices.length }) }

/-- Recursion worker for `replaceAll`, structurally recursive on an
explicit fuel so that the function reduces definitionally.  Each step
consumes at least one character of the scanned string, so any fuel of at
least the string's length gives Python's semantics. -/
def replaceAllAux (pat repl : List Char) : ℕ → List Char → List Char
  | _, [] => []
  | 0, s => s
  | fuel + 1, c :: rest =>
    if pat ≠ [] ∧ pat <+: c :: rest then
      repl ++ replaceAllAux pat repl fuel ((c :: rest).drop pat.length)
    else
      c :: replaceAllAux pat repl fuel rest

/-- Python `str.replace(pat, repl)` for a non-empty pattern: replaces
every non-overlapping occurrence of `pat`, scanning left to right.
(The module only ever calls it with patterns ending in `'-'`, hence
non-empty; for `pat = []` this embedding is the identity.) -/
def replaceAll (pat repl s : List Char) : List Char :=
  replaceAllAux pat repl s.length s

/-- One persisted entity-registry entry (`er.RegistryEntry`): the fields
the migration reads.  `entityId` is the registry key (`entry.entity_id`),
unique across the registry. -/
structure RegistryEntry where
  entityId : List Char
  domain : List Char
  platform : List Char
  uniqueId : List Char
  configEntryId : List Char
deriving DecidableEq, Repr

/-- The entity registry: the list of all registered entities. -/
abbrev Registry := List RegistryEntry

/-- `entity_registry.async_get_entity_id(domain, platform, unique_id)`:
the entity id of the (first) entity carrying this unique id in the given
domain and platform, if any. -/
def async_get_entity_id (reg : Registry) (domain platform uniqueId : List Char) :
    Option (List Char) :=
  (reg.find? (fun e =>
    e.domain = domain ∧ e.platform = platform ∧ e.uniqueId = uniqueId)).map
    (·.entityId)

/-- The new unique id computed inside `update_unique_id` (lines 83-86):
`entry.unique_id.replace(f"{serial}-", f"{newDeviceId}-")`. -/
def computeNewUid (serial newDeviceId uid : List Char) : List Char :=
  replaceAll (serial ++ ['-']) (newDeviceId ++ ['-']) uid

/-- The `update_unique_id` callback (lines 81-104): compute the rewritten
unique id; if an entity with that unique id already exists in the entry's
domain and platform, log the collision and return no update (`None`),
otherwise return the new unique id. -/
def update_unique_id (reg : Registry) (serial newDeviceId : List Char)
    (entry : RegistryEntry) : Option (List Char) :=
  let new_unique_id := computeNewUid serial newDeviceId entry.uniqueId
  match async_get_entity_id reg entry.domain entry.platform new_unique_id with
  | some _ => none
  | none => some new_unique_id

/-- Applying one accepted update: the registry with the unique id of the
entity keyed `entityId` set to `newUid` (entity ids never change). -/
def applyUpdate (reg : Registry) (entityId newUid : List Char) : Registry :=
  reg.map (fun e => if e.entityId = entityId then { e with uniqueId := newUid } else e)

/-- One iteration of `er.async_migrate_entries`: look up the entity by its
id in the current registry, run `update_unique_id` against the current
registry, and either apply the returned update immediately or record the
collision warning (the pair of the colliding new unique id and the entity
id that already holds it). -/
def migrateStep (serial newDeviceId : List Char) (reg : Registry)
    (entityId : List Char) : Registry × Option (List Char × List Char) :=
  match reg.find? (fun e => e.entityId = entityId) with
  | none => (reg, none)
  | some e =>
    let new_unique_id := computeNewUid serial newDeviceId e.uniqueId
    match async_get_entity_id reg e.domain e.platform new_unique_id with
    | some existing_entity_id => (reg, some (new_unique_id, existing_entity_id))
    | none => (applyUpdate reg entityId new_unique_id, none)

/-- `er.async_migrate_entries(hass, entry_id, update_unique_id)` restricted
to a given processing order: fold `migrateStep` over the listed entity ids,
threading the registry and collecting collision warnings. -/
def migrateEntries (serial newDeviceId : List Char) (reg : Registry) :
    List (List Char) → Registry × List (List Char × List Char)
  | [] => (reg, [])
  | entityId :: rest =>
    let step := migrateStep serial newDeviceId reg entityId
    let recur := migrateEntries serial newDeviceId step.1 rest
    (recur.1, step.2.toList ++ recur.2)

/-- `er.async_migrate_entries` processes exactly the entities registered
under the given config entry, in registry order. -/
def migrateEntriesHA (configEntryId serial newDeviceId : List Char)
    (reg : Registry) : Registry × List (List Char × List Char) :=
  migrateEntries serial newDeviceId reg
    ((reg.filter (fun e => e.configEntryId = configEntryId)).map (·.entityId))

/-- Result of `_async_migrate_entries`: the (possibly updated) config-entry
version, the (possibly rewritten) registry, the collision warnings logged,
and the returned boolean. -/
structure MigrationResult where
  version : ℕ
  registry : Registry
  warnings : List (List Char × List Char)
  ok : Bool
deriving DecidableEq, Repr

/-- `_async_migrate_entries(hass, config_entry)` (lines 69-111): if the
entry's version is 1, fetch the cached device list
(`hass.data[DOMAIN][entry_id][VICARE_DEVICE_CONFIG]`, where `none` models
Python `None`); if it is `None` or empty return `True` untouched; otherwise
migrate every entity of the entry using the first device's serial and new
device id, set the entry version to 2, and return `True`.  Any other
version returns `True` untouched. -/
def vicareMigrate (configEntryId : List Char) (version : ℕ)
    (devices : Option (List Device)) (reg : Registry) : MigrationResult :=
  if version = 1 then
    match devices with
    | none => { version := version, registry := reg, warnings := [], ok := true }
    | some ds =>
      match ds with
      | [] => { version := version, registry := reg, warnings := [], ok := true }
      | d :: _ =>
        let res := migrateEntriesHA configEntryId d.serial d.uniqueDeviceId reg
        { version := 2, registry := res.1, warnings := res.2, ok := true }
  else
    { version := version, registry := reg, warnings := [], ok := true }

/-- The upstream exceptions that can escape the body of
`async_setup_entry`'s `try` block; `other` stands for any exception type
not named by an `except` clause (carrying its name). -/
inductive UpstreamError where
  | invalidCredentials
  | rateLimit
  | internalServerError
  | connectionError
  | readTimeout
  | other (name : List Char)
deriving DecidableEq, Repr

/-- Host-level outcome of `async_setup_entry`: success, the permanent
auth-failure signal, the transient-failure signal, or an exception
propagating unhandled. -/
inductive SetupOutcome where
  | ok
  | configEntryAuthFailed
  | configEntryNotReady
  | unhandled (name : List Char)
deriving DecidableEq, Repr

/-- The `except` clauses of `async_setup_entry` (lines 121-136): given the
result of the `try` body, the outcome the host observes.
`PyViCareInvalidCredentialsError → ConfigEntryAuthFailed`;
`PyViCareRateLimitError`, `PyViCareInternalServerError`,
`requests.exceptions.ConnectionError`, `requests.exceptions.ReadTimeout`
→ `ConfigEntryNotReady`; anything else is uncaught. -/
def setupExceptionOutcome : Except UpstreamError Unit → SetupOutcome
  | .ok _ => .ok
  | .error .invalidCredentials => .configEntryAuthFailed
  | .error .rateLimit => .configEntryNotReady
  | .error .internalServerError => .configEntryNotReady
  | .error .connectionError => .configEntryNotReady
  | .error .readTimeout => .configEntryNotReady
  | .error (.other name) => .unhandled name

/-- A per-entry record in `hass.data[DOMAIN]`: the value stored under
`VICARE_DEVICE_CONFIG` once `setup_vicare_api` ran (`none` before). -/
abbrev EntryRecord := Option (List Device)

/-- The process-wide state `hass.data[DOMAIN]`: an association list from
config-entry id to that entry's record. -/
abbrev DomainData := List (List Char × EntryRecord)

/-- Dictionary lookup `mapping[entryId]` as an option. -/
def lookupEntry (data : DomainData) (entryId : List Char) : Option EntryRecord :=
  (data.find? (fun p => p.1 = entryId)).map (·.2)

/-- Lines 118-119 of `async_setup_entry`: `hass.data[DOMAIN] = {}` followed
by `hass.data[DOMAIN][entry.entry_id] = {}` — the whole domain mapping is
replaced by a fresh one holding only this entry's empty record. -/
def setupInitData (_data : DomainData) (entryId : List Char) : DomainData :=
  [(entryId, (none : EntryRecord))]

/-- The Python exceptions `async_unload_entry` can meet: `KeyError` from
`dict.pop` on a missing key, `FileNotFoundError` from `os.remove`. -/
inductive PyError where
  | keyError
  | fileNotFoundError
deriving DecidableEq, Repr

/-- `os.remove(token_path)`: deletes the file when it exists, raises
`FileNotFoundError` when it does not.  The returned boolean is whether
the file exists afterwards. -/
def osRemove (tokenFileExists : Bool) : Except PyError Bool :=
  if tokenFileExists then .ok false else .error .fileNotFoundError

/-- State touched by `async_unload_entry`: the domain mapping and whether
the token file exists. -/
structure UnloadState where
  domainData : DomainData
  tokenFileExists : Bool
deriving DecidableEq, Repr

/-- `async_unload_entry(hass, entry)` (lines 176-186), given the result
`unload_ok` of `async_unload_platforms`: when `unload_ok`, run
`hass.data[DOMAIN].pop(entry.entry_id)` — which removes the entry's
record, or raises `KeyError` when no record with that key is present;
then `os.remove` the token file inside `suppress(FileNotFoundError)`
(the `match` on `osRemove` embeds the `with suppress` block:
`FileNotFoundError` is swallowed, any other exception propagates);
return `unload_ok`. -/
def async_unload_entry (unload_ok : Bool) (entryId : List Char)
    (st : UnloadState) : Except PyError (Bool × UnloadState) := do
  let data' ←
    if unload_ok then
      match lookupEntry st.domainData entryId with
      | none => throw PyError.keyError
      | some _ => pure (st.domainData.filter (fun p => p.1 ≠ entryId))
    else
      pure st.domainData
  let token' ←
    match osRemove st.tokenFileExists with
    | .ok b => pure b
    | .error .fileNotFoundError => pure st.tokenFileExists
    | .error e => throw e
  return (unload_ok, { domainData := data', tokenFileExists := token' })

/-- A concrete three-device account used to instantiate the setup
scenario of the spec (`B = 60`, three devices). -/
def devs3 : List Device :=
  [{ serial := ['a'], uniqueDeviceId := ['x'], cacheDuration := 0 },
   { serial := ['b'], uniqueDeviceId := ['y'], cacheDuration := 0 },
   { serial := ['c'], uniqueDeviceId := ['z'], cacheDuration := 0 }]

/-- The first device of `devs3` as it comes out of `setup_vicare_api`
(cache duration overridden to `60 * 3`). -/
def firstMigrated : Device :=
  { serial := ['a'], uniqueDeviceId := ['x'],
    cacheDuration := 60 * ((3 : ℕ) : ℚ) }

/-- C1: for every device count `n ≥ 0` and base interval `B > 0`, the scan
interval computed during setup equals `max(B, B*n)` when the premium flag
is absent or false, equals `max(B, B*n) / 2` when it is true (halving after
the max), and the session built by `setup_vicare_api` carries exactly this
interval as its cache duration. -/
theorem scan_interval_formula (B : ℚ) (n : ℕ) (hB : 0 < B) :
    (∀ premium : PremiumFlag, premium ≠ some true →
      computeInterval B n premium = max B (B * n)) ∧
    computeInterval B n (some true) = max B (B * n) / 2 ∧
    (∀ (premium : PremiumFlag) (ds : List Device),
      (setup_vicare_api B premium ds).cacheDuration
        = computeInterval B ds.length premium) := by
  refine ⟨fun p hp => ?_, ?_, fun p ds => rfl⟩
  · simp [computeInterval, hp]
  · simp [computeInterval]

/-- Witness for `scan_interval_formula` at `B = 60`, `n = 3`. -/
theorem scan_interval_formula_witness :
    computeInterval 60 3 none = max 60 (60 * ((3 : ℕ) : ℚ)) ∧
    computeInterval 60 3 (some true) = max 60 (60 * ((3 : ℕ) : ℚ)) / 2 :=
  ⟨(scan_interval_formula 60 3 (by norm_num)).1 none (by decide),
   (scan_interval_formula 60 3 (by norm_num)).2.1⟩

/-- C2 counterexample: the claim "the interval never falls below `B`,
including when the premium flag is true" is false — with `B = 60` and one
device the premium interval is `30 < 60`. -/
theorem scan_interval_falls_below_base :
    computeInterval 60 1 (some true) < 60 := by
  norm_num [computeInterval]

/-- C2 amended: the interval is monotonically non-decreasing in the device
count, setting the premium flag divides it by exactly two, and it never
falls below `B` when premium is unset and never below `B / 2` when premium
is set. -/
theorem scan_interval_policy_amended (B : ℚ) (n m : ℕ) (premium : PremiumFlag)
    (hB : 0 < B) :
    (n ≤ m → computeInterval B n premium ≤ computeInterval B m premium) ∧
    computeInterval B n (some true) = computeInterval B n none / 2 ∧
    (premium ≠ some true → B ≤ computeInterval B n premium) ∧
    B / 2 ≤ computeInterval B n (some true) := by
  have hBase : B ≤ max B (B * (n : ℚ)) := le_max_left _ _
  refine ⟨fun hnm => ?_, by simp [computeInterval], fun hp => ?_, ?_⟩
  · have key : max B (B * (n : ℚ)) ≤ max B (B * (m : ℚ)) :=
      max_le_max le_rfl
        (mul_le_mul_of_nonneg_left (by exact_mod_cast hnm) hB.le)
    by_cases hp : premium = some true <;>
      simp only [computeInterval, hp, if_true, if_false, reduceIte] <;>
      linarith
  · simpa [computeInterval, hp] using hBase
  · simp only [computeInterval, reduceIte]
    linarith

/-- Witness for `scan_interval_policy_amended` at `B = 60`, `n = 1`,
`m = 3`, premium absent. -/
theorem scan_interval_policy_amended_witness :
    (computeInterval 60 1 none ≤ computeInterval 60 3 none) ∧
    computeInterval 60 1 (some true) = computeInterval 60 1 none / 2 ∧
    (60 : ℚ) ≤ computeInterval 60 1 none ∧
    (60 : ℚ) / 2 ≤ computeInterval 60 1 (some true) :=
  have h := scan_interval_policy_amended 60 1 3 none (by norm_num)
  ⟨h.1 (by norm_num), h.2.1, h.2.2.1 (by decide), h.2.2.2⟩

/-- Cons on the right preserves containment of a pattern. -/
theorem isInfixOfCons {pat rest : List Char} {c : Char} (h : pat <:+: rest) :
    pat <:+: c :: rest := by
  obtain ⟨u, v, huv⟩ := h
  exact ⟨c :: u, v, by rw [← huv]; rfl⟩

/-- If the pattern occurs nowhere in the string, `replaceAllAux` returns
the string unchanged, whatever the fuel. -/
theorem replaceAllAux_no_occurrence (pat repl : List Char) (fuel : ℕ) :
    ∀ s : List Char, ¬ pat <:+: s → replaceAllAux pat repl fuel s = s := by
  induction fuel with
  | zero => intro s _; cases s <;> rfl
  | succ fuel ih =>
    intro s hs
    cases s with
    | nil => rfl
    | cons c rest =>
      have hcond : ¬ (pat ≠ [] ∧ pat <+: c :: rest) := by
        rintro ⟨-, t, ht⟩
        exact hs ⟨[], t, by rw [← ht]; rfl⟩
      simp only [replaceAllAux]
      rw [if_neg hcond, ih rest (fun h => hs (isInfixOfCons h))]

/-- A leading occurrence of a non-empty pattern is rewritten and, when the
pattern does not reoccur, the rest of the string is kept verbatim. -/
theorem replaceAll_at_head (pat repl suffix : List Char) (hp : pat ≠ [])
    (hs : ¬ pat <:+: suffix) :
    replaceAll pat repl (pat ++ suffix) = repl ++ suffix := by
  obtain ⟨c, pat', rfl⟩ := List.exists_cons_of_ne_nil hp
  show replaceAllAux (c :: pat') repl ((c :: pat') ++ suffix).length
      (c :: (pat' ++ suffix)) = repl ++ suffix
  have hlen : ((c :: pat') ++ suffix).length = (pat' ++ suffix).length + 1 := by
    simp
  rw [hlen]
  simp only [replaceAllAux]
  rw [if_pos ⟨by simp, (List.prefix_append (c :: pat') suffix : _ <+: _)⟩]
  have hdrop : (c :: (pat' ++ suffix)).drop (c :: pat').length = suffix := by
    simpa using List.drop_left (c :: pat') suffix
  rw [hdrop, replaceAllAux_no_occurrence _ _ _ _ hs]

/-- The entity used as the C3 counterexample: its unique id contains the
first device's serial mid-string, not as a prefix. -/
def cexEntry : RegistryEntry :=
  { entityId := ['e', '1'], domain := ['s'], platform := ['v'],
    uniqueId := ['q', '-', 'a', 'b', 'c', '-', 'z'],
    configEntryId := ['c', 'e'] }

/-- C3 counterexample: the unique-id rewrite is not limited to the prefix.
For serial `abc`, new device id `xyz` and the persisted id `q-abc-z`, the
prefix is not `abc-`, yet the migration returns the modified id
`q-xyz-z`. -/
theorem unique_id_rewrite_not_prefix_limited :
    ¬ ((['a', 'b', 'c', '-'] : List Char) <+: cexEntry.uniqueId) ∧
    update_unique_id [cexEntry] ['a', 'b', 'c'] ['x', 'y', 'z'] cexEntry
      = some ['q', '-', 'x', 'y', 'z', '-', 'z'] ∧
    (['q', '-', 'x', 'y', 'z', '-', 'z'] : List Char) ≠ cexEntry.uniqueId := by
  decide

/-- C3 amended: the migration rewrites every left-to-right occurrence of
`<serial>-` anywhere in the persisted id to `<newDeviceId>-`; an id in
which `<serial>-` does not occur is left unchanged, and an id of the form
`<serial>-<suffix>` where the pattern does not reoccur in the suffix is
rewritten to `<newDeviceId>-<suffix>` with the suffix kept verbatim. -/
theorem unique_id_rewrite_amended (serial newDeviceId uid suffix : List Char) :
    computeNewUid serial newDeviceId uid
      = replaceAll (serial ++ ['-']) (newDeviceId ++ ['-']) uid ∧
    (¬ (serial ++ ['-']) <:+: uid →
      computeNewUid serial newDeviceId uid = uid) ∧
    (uid = (serial ++ ['-']) ++ suffix → ¬ (serial ++ ['-']) <:+: suffix →
      computeNewUid serial newDeviceId uid = (newDeviceId ++ ['-']) ++ suffix) := by
  refine ⟨rfl, fun h => replaceAllAux_no_occurrence _ _ _ _ h, fun h hs => ?_⟩
  subst h
  exact replaceAll_at_head _ _ _ (by simp) hs

/-- Witness for `unique_id_rewrite_amended`: serial `abc`, new id `xyz`,
id `zz` untouched, id `abc-t` rewritten to `xyz-t`. -/
theorem unique_id_rewrite_amended_witness :
    computeNewUid ['a', 'b', 'c'] ['x', 'y', 'z'] ['z', 'z'] = ['z', 'z'] ∧
    computeNewUid ['a', 'b', 'c'] ['x', 'y', 'z'] ['a', 'b', 'c', '-', 't']
      = ['x', 'y', 'z', '-', 't'] :=
  ⟨(unique_id_rewrite_amended ['a', 'b', 'c'] ['x', 'y', 'z'] ['z', 'z']
      []).2.1 (by decide),
   (unique_id_rewrite_amended ['a', 'b', 'c'] ['x', 'y', 'z']
      ['a', 'b', 'c', '-', 't'] ['t']).2.2 (by decide) (by decide)⟩

/-- C5: setup maps upstream exceptions to exactly two host-level outcomes —
invalid credentials raise `ConfigEntryAuthFailed`; rate-limit, internal
server, connection and read-timeout errors raise `ConfigEntryNotReady`;
every other exception propagates unhandled; a clean body returns
successfully. -/
theorem setup_exception_mapping :
    setupExceptionOutcome (.error .invalidCredentials) = .configEntryAuthFailed ∧
    setupExceptionOutcome (.error .rateLimit) = .configEntryNotReady ∧
    setupExceptionOutcome (.error .internalServerError) = .configEntryNotReady ∧
    setupExceptionOutcome (.error .connectionError) = .configEntryNotReady ∧
    setupExceptionOutcome (.error .readTimeout) = .configEntryNotReady ∧
    (∀ name, setupExceptionOutcome (.error (.other name)) = .unhandled name) ∧
    setupExceptionOutcome (.ok ()) = .ok :=
  ⟨rfl, rfl, rfl, rfl, rfl, fun _ => rfl, rfl⟩

/-- C6 counterexample: when platform unload succeeds while the entry's
record is absent from process-wide state — a state reachable because
setting up any other entry wipes the whole domain mapping —
`dict.pop` raises `KeyError`: unload does not attempt token-file deletion
(the file stays present) and does not return the platform-unload result. -/
theorem unload_keyerror_on_missing_record :
    async_unload_entry true ['a']
        { domainData := [], tokenFileExists := true }
      = .error PyError.keyError := rfl

/-- C6 amended: when platform unload fails, or when it succeeds and the
entry's record is present, unload deletes the token file (a missing token
file raising `FileNotFoundError` is suppressed, not an error), evicts the
record exactly when platform unload succeeded, and returns the
platform-unload result; but when platform unload succeeds with the
entry's record absent, unload raises `KeyError` before attempting
token-file deletion. -/
theorem unload_entry_behavior_amended (unload_ok : Bool) (entryId : List Char)
    (st : UnloadState) (r : EntryRecord) :
    (unload_ok = false →
      async_unload_entry unload_ok entryId st
        = .ok (false,
            { domainData := st.domainData, tokenFileExists := false })) ∧
    (unload_ok = true → lookupEntry st.domainData entryId = some r →
      async_unload_entry unload_ok entryId st
        = .ok (true,
            { domainData := st.domainData.filter (fun p => p.1 ≠ entryId),
              tokenFileExists := false })) ∧
    (unload_ok = true → lookupEntry st.domainData entryId = none →
      async_unload_entry unload_ok entryId st = .error PyError.keyError) := by
  refine ⟨fun h => ?_, fun h hk => ?_, fun h hk => ?_⟩ <;> subst h
  · cases htok : st.tokenFileExists <;>
      simp [async_unload_entry, osRemove, htok] <;> rfl
  · cases htok : st.tokenFileExists <;>
      simp [async_unload_entry, osRemove, htok, hk] <;> rfl
  · simp only [async_unload_entry, hk]
    rfl

/-- Witness for `unload_entry_behavior_amended`: a state holding the
record of entry `['a']` with the token file present — a failed platform
unload keeps the record and still deletes the token; a successful one
evicts it and deletes the token. -/
theorem unload_entry_behavior_amended_witness :
    async_unload_entry false ['a']
        { domainData := [(['a'], (none : EntryRecord))], tokenFileExists := true }
      = .ok (false,
          { domainData := [(['a'], (none : EntryRecord))],
            tokenFileExists := false }) ∧
    async_unload_entry true ['a']
        { domainData := [(['a'], (none : EntryRecord))], tokenFileExists := true }
      = .ok (true, { domainData := [], tokenFileExists := false }) :=
  ⟨(unload_entry_behavior_amended false ['a']
      { domainData := [(['a'], none)], tokenFileExists := true } none).1 rfl,
   (unload_entry_behavior_amended true ['a']
      { domainData := [(['a'], none)], tokenFileExists := true } none).2.1
      rfl (by decide)⟩

/-- C9: after setup every enumerated device's cache duration equals
`B * n`, whatever the premium flag. -/
theorem device_cache_duration_override (B : ℚ) (premium : PremiumFlag)
    (deviceList : List Device) (d : Device)
    (hd : d ∈ (setup_vicare_api B premium deviceList).devices) :
    d.cacheDuration = B * deviceList.length := by
  simp only [setup_vicare_api, vicare_login, List.mem_map] at hd
  obtain ⟨d₀, -, rfl⟩ := hd
  rfl

/-- Witness for `device_cache_duration_override`: the spec scenario with
`B = 60` and three devices — session interval 180 without premium, 90 with
premium, per-device cache duration `60 * 3 = 180` in both cases. -/
theorem device_cache_duration_override_witness :
    (setup_vicare_api 60 none devs3).cacheDuration = 180 ∧
    (setup_vicare_api 60 (some true) devs3).cacheDuration = 90 ∧
    firstMigrated ∈ (setup_vicare_api 60 none devs3).devices ∧
    firstMigrated ∈ (setup_vicare_api 60 (some true) devs3).devices ∧
    firstMigrated.cacheDuration = 60 * (devs3.length : ℚ) ∧
    firstMigrated.cacheDuration = 180 := by
  have hmem : firstMigrated ∈ (setup_vicare_api 60 none devs3).devices := by
    simp [setup_vicare_api, vicare_login, devs3, firstMigrated]
  have hmem' : firstMigrated ∈ (setup_vicare_api 60 (some true) devs3).devices := by
    simp [setup_vicare_api, vicare_login, devs3, firstMigrated]
  refine ⟨?_, ?_, hmem, hmem',
    device_cache_duration_override 60 none devs3 firstMigrated hmem, ?_⟩
  · simp [setup_vicare_api, vicare_login, computeInterval, devs3]
    norm_num
  · simp [setup_vicare_api, vicare_login, computeInterval, devs3]
    norm_num
  · norm_num [firstMigrated]

/-- C10: `async_setup_entry` replaces the whole `hass.data[DOMAIN]`
mapping with a fresh one holding only the entry being set up, so every
other entry's cached record present before is erased. -/
theorem setup_erases_other_entries (data : DomainData)
    (entryId otherId : List Char) (r : EntryRecord)
    (hne : otherId ≠ entryId)
    (hprev : lookupEntry data otherId = some r) :
    lookupEntry (setupInitData data entryId) otherId = none := by
  simp [setupInitData, lookupEntry, List.find?, Ne.symm hne]

/-- Witness for `setup_erases_other_entries`: entry `['a']` is cached, a
setup of entry `['b']` erases it. -/
theorem setup_erases_other_entries_witness :
    lookupEntry (setupInitData [(['a'], (none : EntryRecord))] ['b']) ['a']
      = none :=
  setup_erases_other_entries [(['a'], none)] ['b'] ['a'] none
    (by decide) (by decide)

/-- C7: the migration touches neither the registry nor the entry's version
when the version is not 1, and touches no entity when the cached device
list is `None` or empty; it returns success in all these cases. -/
theorem migrate_noop (configEntryId : List Char) (version : ℕ)
    (devices : Option (List Device)) (reg : Registry) :
    (version ≠ 1 →
      vicareMigrate configEntryId version devices reg
        = { version := version, registry := reg, warnings := [], ok := true }) ∧
    (devices = none ∨ devices = some [] →
      vicareMigrate configEntryId version devices reg
        = { version := version, registry := reg, warnings := [], ok := true }) := by
  constructor
  · intro h
    simp [vicareMigrate, h]
  · rintro (rfl | rfl) <;> by_cases h : version = 1 <;>
      simp [vicareMigrate, h]

/-- Witness for `migrate_noop`: version 2 is untouched; version 1 with no
cached devices is untouched. -/
theorem migrate_noop_witness :
    vicareMigrate ['c', 'e'] 2 (some devs3) [cexEntry]
      = { version := 2, registry := [cexEntry], warnings := [], ok := true } ∧
    vicareMigrate ['c', 'e'] 1 none [cexEntry]
      = { version := 1, registry := [cexEntry], warnings := [], ok := true } :=
  ⟨(migrate_noop ['c', 'e'] 2 (some devs3) [cexEntry]).1 (by decide),
   (migrate_noop ['c', 'e'] 1 none [cexEntry]).2 (Or.inl rfl)⟩

/-- C8: a migration run that attempts its rewrites advances the stored
version to 2, and a second run performed on its result (with the advanced
version) mutates no entity and no field. -/
theorem migrate_idempotent (configEntryId : List Char)
    (devices : Option (List Device)) (ds : List Device) (reg : Registry)
    (hds : devices = some ds) (hne : ds ≠ []) :
    (vicareMigrate configEntryId 1 devices reg).version = 2 ∧
    vicareMigrate configEntryId
        (vicareMigrate configEntryId 1 devices reg).version devices
        (vicareMigrate configEntryId 1 devices reg).registry
      = { version := (vicareMigrate configEntryId 1 devices reg).version,
          registry := (vicareMigrate configEntryId 1 devices reg).registry,
          warnings := [], ok := true } := by
  subst hds
  obtain ⟨d, ds', rfl⟩ := List.exists_cons_of_ne_nil hne
  have hver : (vicareMigrate configEntryId 1 (some (d :: ds')) reg).version = 2 := by
    simp [vicareMigrate]
  refine ⟨hver, ?_⟩
  rw [hver]
  simp [vicareMigrate]

/-- Witness for `migrate_idempotent`: entry `ce` with the three-device
account and the counterexample registry. -/
theorem migrate_idempotent_witness :
    (vicareMigrate ['c', 'e'] 1 (some devs3) [cexEntry]).version = 2 ∧
    vicareMigrate ['c', 'e']
        (vicareMigrate ['c', 'e'] 1 (some devs3) [cexEntry]).version (some devs3)
        (vicareMigrate ['c', 'e'] 1 (some devs3) [cexEntry]).registry
      = { version := (vicareMigrate ['c', 'e'] 1 (some devs3) [cexEntry]).version,
          registry := (vicareMigrate ['c', 'e'] 1 (some devs3) [cexEntry]).registry,
          warnings := [], ok := true } :=
  migrate_idempotent ['c', 'e'] (some devs3) devs3 [cexEntry] rfl (by decide)

/-- The scope key under which Home Assistant requires unique ids to be
unique: (domain, platform, unique id). -/
def UidKey (e : RegistryEntry) : List Char × List Char × List Char :=
  (e.domain, e.platform, e.uniqueId)

/-- No two registry entries share a unique id within the same domain and
platform. -/
abbrev DistinctUids (reg : Registry) : Prop :=
  reg.Pairwise (fun a b => UidKey a ≠ UidKey b)

/-- Entity ids are the registry's keys: pairwise distinct. -/
abbrev DistinctEntityIds (reg : Registry) : Prop :=
  (reg.map RegistryEntry.entityId).Nodup

/-- `applyUpdate` never touches entity ids. -/
theorem applyUpdate_map_entityId (reg : Registry) (entityId newUid : List Char) :
    (applyUpdate reg entityId newUid).map RegistryEntry.entityId
      = reg.map RegistryEntry.entityId := by
  unfold applyUpdate
  rw [List.map_map]
  apply List.map_congr_left
  intro e _
  by_cases h : e.entityId = entityId <;> simp [h]

/-- Rewriting one entity's unique id to a value that the existence check
found free keeps unique ids distinct per domain and platform. -/
theorem applyUpdate_distinctUids (reg : Registry) (e : RegistryEntry)
    (newUid : List Char)
    (hE : DistinctEntityIds reg) (hU : DistinctUids reg) (he : e ∈ reg)
    (hnone : reg.find? (fun x =>
      x.domain = e.domain ∧ x.platform = e.platform ∧ x.uniqueId = newUid)
        = none) :
    DistinctUids (applyUpdate reg e.entityId newUid) := by
  have hno : ∀ x ∈ reg,
      ¬ (x.domain = e.domain ∧ x.platform = e.platform ∧ x.uniqueId = newUid) := by
    intro x hx
    simpa using List.find?_eq_none.mp hnone x hx
  have hinj := List.inj_on_of_nodup_map hE
  unfold applyUpdate
  apply List.pairwise_map.mpr
  refine hU.imp_of_mem ?_
  intro a b ha hb hab heq
  by_cases haid : a.entityId = e.entityId <;>
    by_cases hbid : b.entityId = e.entityId <;>
    simp only [haid, hbid, if_true, if_false, reduceIte, UidKey,
      Prod.mk.injEq] at heq
  · exact hab (congrArg UidKey (hinj ha hb (haid.trans hbid.symm)))
  · have ha' : a = e := hinj ha he haid
    exact hno b hb ⟨heq.1.symm.trans (congrArg RegistryEntry.domain ha'),
      heq.2.1.symm.trans (congrArg RegistryEntry.platform ha'), heq.2.2.symm⟩
  · have hb' : b = e := hinj hb he hbid
    exact hno a ha ⟨heq.1.trans (congrArg RegistryEntry.domain hb'),
      heq.2.1.trans (congrArg RegistryEntry.platform hb'), heq.2.2⟩
  · exact hab (by simp [UidKey, heq.1, heq.2.1, heq.2.2])

/-- One migration step preserves both registry invariants. -/
theorem migrateStep_invariants (serial newDeviceId : List Char)
    (reg : Registry) (entityId : List Char)
    (hE : DistinctEntityIds reg) (hU : DistinctUids reg) :
    DistinctEntityIds (migrateStep serial newDeviceId reg entityId).1 ∧
    DistinctUids (migrateStep serial newDeviceId reg entityId).1 := by
  cases hfind : reg.find? (fun e => e.entityId = entityId) with
  | none => simp only [migrateStep, hfind]; exact ⟨hE, hU⟩
  | some e =>
    have heid : e.entityId = entityId := by
      have h := List.find?_some hfind
      simpa using h
    have hmem : e ∈ reg := List.mem_of_find?_eq_some hfind
    cases hlook : async_get_entity_id reg e.domain e.platform
        (computeNewUid serial newDeviceId e.uniqueId) with
    | some existingId => simp only [migrateStep, hfind, hlook]; exact ⟨hE, hU⟩
    | none =>
      have hfnone : reg.find? (fun x =>
          x.domain = e.domain ∧ x.platform = e.platform ∧
            x.uniqueId = computeNewUid serial newDeviceId e.uniqueId) = none := by
        unfold async_get_entity_id at hlook
        exact Option.map_eq_none.mp hlook
      simp only [migrateStep, hfind, hlook]
      constructor
      · show ((applyUpdate reg entityId _).map RegistryEntry.entityId).Nodup
        rw [applyUpdate_map_entityId]
        exact hE
      · rw [← heid]
        exact applyUpdate_distinctUids reg e _ hE hU hmem hfnone

/-- The whole migration fold preserves both registry invariants. -/
theorem migrateEntries_invariants (serial newDeviceId : List Char) :
    ∀ (todo : List (List Char)) (reg : Registry),
      DistinctEntityIds reg → DistinctUids reg →
      DistinctEntityIds (migrateEntries serial newDeviceId reg todo).1 ∧
      DistinctUids (migrateEntries serial newDeviceId reg todo).1
  | [], _, hE, hU => ⟨hE, hU⟩
  | eid :: rest, reg, hE, hU => by
    have hstep := migrateStep_invariants serial newDeviceId reg eid hE hU
    simp only [migrateEntries]
    exact migrateEntries_invariants serial newDeviceId rest _ hstep.1 hstep.2

/-- `_async_migrate_entries` preserves per-domain/platform uniqueness of
unique ids, whatever the entry version and cached device list. -/
theorem vicareMigrate_distinctUids (configEntryId : List Char) (version : ℕ)
    (devices : Option (List Device)) (reg : Registry)
    (hE : DistinctEntityIds reg) (hU : DistinctUids reg) :
    DistinctUids (vicareMigrate configEntryId version devices reg).registry := by
  unfold vicareMigrate
  by_cases hv : version = 1
  · rw [if_pos hv]
    cases devices with
    | none => exact hU
    | some ds =>
      cases ds with
      | nil => exact hU
      | cons d ds' =>
        exact (migrateEntries_invariants _ _ _ _ hE hU).2
  · rw [if_neg hv]
    exact hU

/-- C4: when the computed new unique id already belongs to an existing
entity of the same domain and platform, the migration step leaves the
registry (hence that entity's unique id) unchanged and records the
collision; and after the migration completes no two entities share a
unique id within a domain and platform, provided none did before. -/
theorem migrate_collision_protected (configEntryId serial newDeviceId : List Char)
    (version : ℕ) (devices : Option (List Device)) (reg : Registry)
    (entityId : List Char) (e : RegistryEntry) (existingId : List Char)
    (hE : DistinctEntityIds reg) (hU : DistinctUids reg) :
    DistinctUids (vicareMigrate configEntryId version devices reg).registry ∧
    (reg.find? (fun x => x.entityId = entityId) = some e →
      async_get_entity_id reg e.domain e.platform
          (computeNewUid serial newDeviceId e.uniqueId) = some existingId →
      migrateStep serial newDeviceId reg entityId
        = (reg, some (computeNewUid serial newDeviceId e.uniqueId, existingId))) := by
  refine ⟨vicareMigrate_distinctUids configEntryId version devices reg hE hU,
    fun hfind hlook => ?_⟩
  simp only [migrateStep, hfind, hlook]

/-- First entity of the collision witness registry: legacy unique id
`a-t` under serial `a`. -/
def cexE1 : RegistryEntry :=
  { entityId := ['e', '1'], domain := ['s'], platform := ['v'],
    uniqueId := ['a', '-', 't'], configEntryId := ['c', 'e'] }

/-- Second entity of the collision witness registry: already holds the
post-migration id `x-t`. -/
def cexE2 : RegistryEntry :=
  { entityId := ['e', '2'], domain := ['s'], platform := ['v'],
    uniqueId := ['x', '-', 't'], configEntryId := ['c', 'e'] }

/-- Registry in which migrating `cexE1` collides with `cexE2`. -/
def cexReg : Registry := [cexE1, cexE2]

/-- Witness for `migrate_collision_protected`: serial `a`, new device id
`x`; entity `e1`'s rewritten id `x-t` collides with `e2`, the step leaves
the registry unchanged and logs the pair, and the full migration keeps
unique ids distinct. -/
theorem migrate_collision_protected_witness :
    DistinctUids (vicareMigrate ['c', 'e'] 1 (some devs3) cexReg).registry ∧
    migrateStep ['a'] ['x'] cexReg ['e', '1']
      = (cexReg, some (['x', '-', 't'], ['e', '2'])) :=
  have h := migrate_collision_protected ['c', 'e'] ['a'] ['x'] 1 (some devs3)
    cexReg ['e', '1'] cexE1 ['e', '2'] (by decide) (by decide)
  ⟨h.1, h.2 (by decide) (by decide)⟩

end ViCare
